import Mathlib

/-!
Shallow embedding of the round-orchestration engine of
`src/robot_race_quiz_v5.py` (class `RobotRaceGame`), restricted to the game
state and game-logic methods; rendering, fonts, logos and the animation
offsets used purely for display are omitted.  Python floats holding track
positions and wall-clock seconds are embedded as rationals (all arithmetic
performed on them in the source is exact); `pygame.time.get_ticks()`
millisecond values are embedded as integers.  Randomness
(`random.shuffle`, `random.sample`) is embedded by passing the random
draws / the drawn permutation as explicit parameters.  Fallible code
(Python list indexing, which can raise `IndexError`) returns `Option`:
`none` models an uncaught exception.
-/

set_option maxHeartbeats 1000000

namespace RobotRace

/-- The `GamePhase` enumeration (source lines 260-279). -/
inductive GamePhase where
  | menu
  | reading
  | buzzer
  | buzzer_pause
  | answering
  | result_pause
  | finished
deriving DecidableEq, Repr

/-- The `Question` dataclass (source lines 282-305). -/
structure Question where
  nivel : ℕ
  pregunta : String
  respuesta_correcta : String
  r1 : String
  r2 : String
deriving DecidableEq, Repr

/-- The `PlayerState` dataclass (source lines 308-331); `animation_offset`
(display-only sine wobble) is omitted. -/
structure PlayerState where
  position : ℚ := 0
  target_position : ℚ := 0
  score : ℕ := 0
  last_answer : Option String := none
  message : String := ""
  message_type : String := "info"
deriving DecidableEq, Repr

/-- The default-constructed `PlayerState()`. -/
def initPlayerState : PlayerState := {}

-- Configuration constants (source lines 189-200 and 429-432).
def READING_TIME_LIMIT : ℤ := 10
def ANSWER_TIME_LIMIT : ℤ := 15
def BUZZER_PAUSE_DURATION : ℤ := 1500
def RESULT_PAUSE_DURATION : ℤ := 2000
def WINNING_POSITION : ℚ := 100
def POSITION_INCREMENT : ℚ := 20

/-- The mutable game state of `RobotRaceGame` (constructor, source lines
369-447), omitting display-only fields (screen, fonts, logos, animation
counter, hover state). -/
structure GameState where
  phase : GamePhase
  level : ℕ
  player1 : PlayerState
  player2 : PlayerState
  winner : Option ℕ
  questions : List Question
  available_questions : List Question
  current_question : Option Question
  current_options : List String
  questions_answered : ℕ
  buzzer_winner : Option ℕ
  buzzer_pause_start : ℤ
  result_pause_start : ℤ
  last_answer_correct : Option Bool
  last_answer_skipped : Bool
  reading_time_remaining : ℤ
  reading_start_time : ℚ
  answer_time_remaining : ℤ
  answer_start_time : ℚ
deriving DecidableEq, Repr

/-- The selection `self.player1 if player == 1 else self.player2` (used at source lines
826, 875, 931). -/
def getPlayer (player : ℕ) (s : GameState) : PlayerState :=
  if player = 1 then s.player1 else s.player2

/-- Writing back the player state selected by `getPlayer` (the Python code
mutates the selected object in place). -/
def setPlayer (player : ℕ) (ps : PlayerState) (s : GameState) : GameState :=
  if player = 1 then { s with player1 := ps } else { s with player2 := ps }

/-- Python `int()` applied to a float: truncation toward zero. -/
def pyInt (q : ℚ) : ℤ :=
  if 0 ≤ q then ⌊q⌋ else ⌈q⌉

/-- Python list indexing `l[i]`: a non-negative index is absolute, a
negative index is end-relative (`len l + i`); out of range raises
`IndexError` (modelled as `none`). -/
def pyIndex {α : Type} (l : List α) (i : ℤ) : Option α :=
  let j : ℤ := if 0 ≤ i then i else (l.length : ℤ) + i
  if 0 ≤ j then l.get? j.toNat else none

/-- Swap the elements at positions `i` and `j` of a list (no-op if either
index is out of range), as in one step of CPython `random.shuffle`. -/
def listSwap {α : Type} (l : List α) (i j : ℕ) : List α :=
  match l.get? i, l.get? j with
  | some a, some b => (l.set i b).set j a
  | _, _ => l

/-- CPython `random.shuffle` is Fisher-Yates: `for i in
reversed(range(1, len(x))): j = randbelow(i + 1); swap x[i], x[j]`.
The list `js` supplies the successive random draws `j` (each `≤ i`);
`i` is the current swap index counting down to `1`. -/
def shuffleAux {α : Type} : ℕ → List ℕ → List α → List α
  | 0, _, l => l
  | _ + 1, [], l => l
  | i + 1, j :: js, l => shuffleAux i js (listSwap l (i + 1) j)

/-- Method `RobotRaceGame.shuffle_options` (source lines 670-685): builds
`[respuesta_correcta, r1, r2]` and applies `random.shuffle`, whose two
random draws (for indices 2 then 1) are passed as `j2`, `j1`. -/
def shuffle_options (j2 j1 : ℕ) (q : Question) : List String :=
  shuffleAux 2 [j2, j1] [q.respuesta_correcta, q.r1, q.r2]

/-- Method `RobotRaceGame.get_questions_by_level` (source lines 658-668). -/
def get_questions_by_level (qs : List Question) (level : ℕ) : List Question :=
  qs.filter (fun q => q.nivel == level)

/-- Method `RobotRaceGame.determine_winner` (source lines 941-970): ends the
match on bank exhaustion, comparing scores. -/
def determine_winner (s : GameState) : GameState :=
  let s0 := { s with phase := GamePhase.finished }
  if s.player1.score > s.player2.score then { s0 with winner := some 1 }
  else if s.player2.score > s.player1.score then { s0 with winner := some 2 }
  else { s0 with winner := some 0 }

/-- Method `RobotRaceGame.assign_next_question` (source lines 687-730): resets
the per-round flags, then either finalizes the match (empty bank) or pops
the head of `available_questions`, shuffles its options (random draws
`j2`, `j1`) and enters the READING phase at wall-clock time `nowS`. -/
def assign_next_question (j2 j1 : ℕ) (nowS : ℚ) (s : GameState) : GameState :=
  let s0 := { s with
    buzzer_winner := none
    last_answer_correct := none
    last_answer_skipped := false
    player1 := { s.player1 with last_answer := none, message := "" }
    player2 := { s.player2 with last_answer := none, message := "" } }
  match s0.available_questions with
  | [] => determine_winner s0
  | q :: rest =>
    { s0 with
      current_question := some q
      available_questions := rest
      current_options := shuffle_options j2 j1 q
      questions_answered := s0.questions_answered + 1
      phase := GamePhase.reading
      reading_start_time := nowS
      reading_time_remaining := READING_TIME_LIMIT }

/-- Method `RobotRaceGame.start_game` (source lines 736-767): resets both
players, draws `random.sample(level_questions, len(level_questions))` — a
uniformly random permutation of `get_questions_by_level s.questions
level`, passed here as the explicit parameter `perm` — and assigns the
first question. -/
def start_game (level : ℕ) (perm : List Question) (j2 j1 : ℕ) (nowS : ℚ)
    (s : GameState) : GameState :=
  assign_next_question j2 j1 nowS
    { s with
      level := level
      winner := none
      questions_answered := 0
      player1 := initPlayerState
      player2 := initPlayerState
      available_questions := perm }

/-- Method `RobotRaceGame.handle_buzzer_press` (source lines 769-796): only in
phase BUZZER; records the buzzer winner and enters BUZZER_PAUSE at tick
time `nowMs`. -/
def handle_buzzer_press (player : ℕ) (nowMs : ℤ) (s : GameState) : GameState :=
  if s.phase ≠ GamePhase.buzzer then s
  else
    { s with
      buzzer_winner := some player
      phase := GamePhase.buzzer_pause
      buzzer_pause_start := nowMs }

/-- Method `RobotRaceGame.handle_skip` (source lines 798-833): only in phase
ANSWERING and only for the buzzer winner; marks the question skipped and
enters RESULT_PAUSE. -/
def handle_skip (player : ℕ) (nowMs : ℤ) (s : GameState) : GameState :=
  if s.phase ≠ GamePhase.answering then s
  else if s.buzzer_winner ≠ some player then s
  else
    let ps := getPlayer player s
    let ps1 := { ps with
      message := "Pregunta saltada"
      message_type := "warning"
      last_answer := some "skipped" }
    let s1 := setPlayer player ps1
      { s with last_answer_skipped := true, last_answer_correct := none }
    { s1 with
      phase := GamePhase.result_pause
      result_pause_start := nowMs }

/-- Method `RobotRaceGame.answer_question` (source lines 835-915): only in phase
ANSWERING and only for the buzzer winner.  The guard rejects (as a silent
no-op) indices `≥ len(current_options)` only; the subsequent Python
indexing `current_options[answer_index]` resolves negative indices
end-relative and raises `IndexError` (result `none`) below `-len`.  A
correct answer advances the player's target position by
`POSITION_INCREMENT` capped at `WINNING_POSITION`, adds one point, and
ends the match at once if the cap is reached. -/
def answer_question (player : ℕ) (answer_index : ℤ) (nowMs : ℤ)
    (s : GameState) : Option GameState :=
  if s.phase ≠ GamePhase.answering then some s
  else if s.buzzer_winner ≠ some player then some s
  else
    match s.current_question with
    | none => some s
    | some q =>
      if answer_index ≥ (s.current_options.length : ℤ) then some s
      else
        match pyIndex s.current_options answer_index with
        | none => none
        | some selected =>
          let is_correct : Bool := selected == q.respuesta_correcta
          let s0 := { s with
            last_answer_correct := some is_correct
            last_answer_skipped := false }
          if is_correct then
            let ps := getPlayer player s0
            let ps1 := { ps with
              target_position :=
                min (ps.target_position + POSITION_INCREMENT) WINNING_POSITION
              score := ps.score + 1
              message := "CORRECTO! +1 punto"
              message_type := "success"
              last_answer := some "correct" }
            let s1 := setPlayer player ps1 s0
            if ps1.target_position ≥ WINNING_POSITION then
              some { s1 with winner := some player, phase := GamePhase.finished }
            else
              some { s1 with
                phase := GamePhase.result_pause
                result_pause_start := nowMs }
          else
            let ps := getPlayer player s0
            let ps1 := { ps with
              message := "Incorrecto. Era: " ++ q.respuesta_correcta
              message_type := "error"
              last_answer := some "incorrect" }
            some { setPlayer player ps1 s0 with
              phase := GamePhase.result_pause
              result_pause_start := nowMs }

/-- Method `RobotRaceGame.handle_answer_timeout` (source lines 917-939).  The
Python guard is the truthiness test `if self.buzzer_winner:` (false for
`None` and for `0`). -/
def handle_answer_timeout (nowMs : ℤ) (s : GameState) : GameState :=
  let s1 :=
    match s.buzzer_winner with
    | some w =>
      if w ≠ 0 then
        let ps := getPlayer w s
        setPlayer w
          { ps with
            message := "Tiempo agotado!"
            message_type := "error"
            last_answer := some "timeout" }
          { s with last_answer_correct := some false }
      else s
    | none => s
  { s1 with
    phase := GamePhase.result_pause
    result_pause_start := nowMs }

/-- Method `RobotRaceGame.reset_game` (source lines 972-994). -/
def reset_game (s : GameState) : GameState :=
  { s with
    phase := GamePhase.menu
    winner := none
    player1 := initPlayerState
    player2 := initPlayerState
    available_questions := []
    current_question := none
    current_options := []
    questions_answered := 0
    buzzer_winner := none
    reading_time_remaining := READING_TIME_LIMIT
    answer_time_remaining := ANSWER_TIME_LIMIT }

/-- The per-player animation step of `RobotRaceGame.update` (source lines
1056-1063): the rendered position creeps toward `target_position` by 2
per frame, clamped at the target. -/
def animatePlayer (ps : PlayerState) : PlayerState :=
  if ps.position < ps.target_position then
    { ps with
      position :=
        if ps.position + 2 > ps.target_position then ps.target_position
        else ps.position + 2 }
  else ps

/-- READING block of `RobotRaceGame.update` (source lines 1020-1028):
recompute the reading timer; on expiry move to BUZZER. -/
def readingBlock (nowS : ℚ) (s : GameState) : GameState :=
  if s.phase = GamePhase.reading then
    if max 0 (READING_TIME_LIMIT - pyInt (nowS - s.reading_start_time)) ≤ 0 then
      { s with
        reading_time_remaining :=
          max 0 (READING_TIME_LIMIT - pyInt (nowS - s.reading_start_time))
        phase := GamePhase.buzzer }
    else
      { s with
        reading_time_remaining :=
          max 0 (READING_TIME_LIMIT - pyInt (nowS - s.reading_start_time)) }
  else s

/-- BUZZER_PAUSE block of `RobotRaceGame.update` (source lines
1031-1038): once the pause has elapsed, open ANSWERING with a fresh
answer timer. -/
def buzzerPauseBlock (nowS : ℚ) (nowMs : ℤ) (s : GameState) : GameState :=
  if s.phase = GamePhase.buzzer_pause then
    if nowMs - s.buzzer_pause_start ≥ BUZZER_PAUSE_DURATION then
      { s with
        phase := GamePhase.answering
        answer_start_time := nowS
        answer_time_remaining := ANSWER_TIME_LIMIT }
    else s
  else s

/-- RESULT_PAUSE block of `RobotRaceGame.update` (source lines
1041-1045): once the pause has elapsed, assign the next question. -/
def resultPauseBlock (j2 j1 : ℕ) (nowS : ℚ) (nowMs : ℤ) (s : GameState) :
    GameState :=
  if s.phase = GamePhase.result_pause then
    if nowMs - s.result_pause_start ≥ RESULT_PAUSE_DURATION then
      assign_next_question j2 j1 nowS s
    else s
  else s

/-- ANSWERING block of `RobotRaceGame.update` (source lines 1048-1054):
recompute the answer timer; on expiry handle the timeout. -/
def answeringBlock (nowS : ℚ) (nowMs : ℤ) (s : GameState) : GameState :=
  if s.phase = GamePhase.answering then
    if max 0 (ANSWER_TIME_LIMIT - pyInt (nowS - s.answer_start_time)) ≤ 0 then
      handle_answer_timeout nowMs
        { s with
          answer_time_remaining :=
            max 0 (ANSWER_TIME_LIMIT - pyInt (nowS - s.answer_start_time)) }
    else
      { s with
        answer_time_remaining :=
          max 0 (ANSWER_TIME_LIMIT - pyInt (nowS - s.answer_start_time)) }
  else s

/-- Method `RobotRaceGame.update` (source lines 1000-1066): the once-per-frame
tick.  `nowS` is the value `time.time()` would return during this call
and `nowMs` the value of `pygame.time.get_ticks()`; `j2`, `j1` are the
option-shuffle draws consumed if a new question is assigned.  The four
phase blocks are sequential `if`s (not `elif`s), exactly as in the
source, so a block sees the state already modified by the previous
blocks of the same tick. -/
def update (nowS : ℚ) (nowMs : ℤ) (j2 j1 : ℕ) (s : GameState) : GameState :=
  let s4 :=
    answeringBlock nowS nowMs
      (resultPauseBlock j2 j1 nowS nowMs
        (buzzerPauseBlock nowS nowMs (readingBlock nowS s)))
  { s4 with
    player1 := animatePlayer s4.player1
    player2 := animatePlayer s4.player2 }

/-- The keys the game reacts to in `RobotRaceGame.handle_events` (source
lines 1072-1156); `kOther` stands for every other key. -/
inductive Key where
  | k1
  | k2
  | k3
  | kA
  | kS
  | kD
  | kJ
  | kK
  | kL
  | kQ
  | kP
  | kEscape
  | kSpace
  | kOther
deriving DecidableEq, Repr

/-- First half of one KEYDOWN event of `RobotRaceGame.handle_events`
(source lines 1094-1142): the `if/elif` chain dispatching the key by
phase (menu level select, buzzer claims, answers/skips).  `perm`, `j2`,
`j1`, `nowS`, `nowMs` supply the randomness and clocks consumed by the
called methods; `none` is an uncaught exception. -/
def handle_key_dispatch (key : Key) (perm : List Question) (j2 j1 : ℕ)
    (nowS : ℚ) (nowMs : ℤ) (s : GameState) : Option GameState :=
  if s.phase = GamePhase.menu then
    match key with
    | Key.k1 => some (start_game 1 perm j2 j1 nowS s)
    | Key.k2 => some (start_game 2 perm j2 j1 nowS s)
    | Key.k3 => some (start_game 3 perm j2 j1 nowS s)
    | _ => some s
  else if s.phase = GamePhase.buzzer then
    match key with
    | Key.kA | Key.kS | Key.kD => some (handle_buzzer_press 1 nowMs s)
    | Key.kJ | Key.kK | Key.kL => some (handle_buzzer_press 2 nowMs s)
    | _ => some s
  else if s.phase = GamePhase.answering then
    if s.buzzer_winner = some 1 then
      match key with
      | Key.kA => answer_question 1 0 nowMs s
      | Key.kS => answer_question 1 1 nowMs s
      | Key.kD => answer_question 1 2 nowMs s
      | Key.kQ => some (handle_skip 1 nowMs s)
      | _ => some s
    else if s.buzzer_winner = some 2 then
      match key with
      | Key.kJ => answer_question 2 0 nowMs s
      | Key.kK => answer_question 2 1 nowMs s
      | Key.kL => answer_question 2 2 nowMs s
      | Key.kP => some (handle_skip 2 nowMs s)
      | _ => some s
    else some s
  else some s

/-- Second half of one KEYDOWN event (source lines 1144-1154): the ESC /
SPACE handling re-examines the phase as already updated by the dispatch
chain of the same event: ESC resets from the five in-round phases, while
from FINISHED only SPACE resets. -/
def handle_key_reset (key : Key) (s1 : GameState) : GameState :=
  if s1.phase = GamePhase.reading ∨ s1.phase = GamePhase.buzzer ∨
      s1.phase = GamePhase.buzzer_pause ∨ s1.phase = GamePhase.answering ∨
      s1.phase = GamePhase.result_pause then
    if key = Key.kEscape then reset_game s1 else s1
  else if s1.phase = GamePhase.finished then
    if key = Key.kSpace then reset_game s1 else s1
  else s1

/-- One KEYDOWN event of `RobotRaceGame.handle_events` (source lines
1094-1154): the phase dispatch chain followed by the ESC/SPACE check (an
exception from the dispatch propagates). -/
def handle_key (key : Key) (perm : List Question) (j2 j1 : ℕ) (nowS : ℚ)
    (nowMs : ℤ) (s : GameState) : Option GameState :=
  match handle_key_dispatch key perm j2 j1 nowS nowMs s with
  | none => none
  | some s1 => some (handle_key_reset key s1)

/-- One in-session operation: a buzzer press, an answer selection, a
skip, an answering-phase timeout, or one tick of the update loop. -/
inductive Op where
  | buzz (player : ℕ) (nowMs : ℤ)
  | ans (player : ℕ) (idx : ℤ) (nowMs : ℤ)
  | skip (player : ℕ) (nowMs : ℤ)
  | timeout (nowMs : ℤ)
  | tick (nowS : ℚ) (nowMs : ℤ) (j2 j1 : ℕ)

/-- Apply one operation to the game state (`none` = uncaught
`IndexError` from `answer_question`). -/
def applyOp : Op → GameState → Option GameState
  | Op.buzz p t, s => some (handle_buzzer_press p t s)
  | Op.ans p i t, s => answer_question p i t s
  | Op.skip p t, s => some (handle_skip p t s)
  | Op.timeout t, s => some (handle_answer_timeout t s)
  | Op.tick tS tMs j2 j1, s => some (update tS tMs j2 j1 s)

/-- Apply a sequence of operations left to right. -/
def applyOps : List Op → GameState → Option GameState
  | [], s => some s
  | op :: ops, s =>
    match applyOp op s with
    | none => none
    | some s1 => applyOps ops s1

/-- The READING timer-expiry check of `update` (source lines 1020-1028)
fires at time `nowS`. -/
def readingExpired (nowS : ℚ) (s : GameState) : Prop :=
  s.phase = GamePhase.reading ∧
    max 0 (READING_TIME_LIMIT - pyInt (nowS - s.reading_start_time)) ≤ 0

/-- The BUZZER_PAUSE expiry check of `update` (source lines 1031-1038)
fires at tick `nowMs`. -/
def buzzerPauseExpired (nowMs : ℤ) (s : GameState) : Prop :=
  s.phase = GamePhase.buzzer_pause ∧
    nowMs - s.buzzer_pause_start ≥ BUZZER_PAUSE_DURATION

/-- The RESULT_PAUSE expiry check of `update` (source lines 1041-1045)
fires at tick `nowMs`. -/
def resultPauseExpired (nowMs : ℤ) (s : GameState) : Prop :=
  s.phase = GamePhase.result_pause ∧
    nowMs - s.result_pause_start ≥ RESULT_PAUSE_DURATION

/-- The ANSWERING timer-expiry check of `update` (source lines 1048-1054)
fires at time `nowS`. -/
def answeringExpired (nowS : ℚ) (s : GameState) : Prop :=
  s.phase = GamePhase.answering ∧
    max 0 (ANSWER_TIME_LIMIT - pyInt (nowS - s.answer_start_time)) ≤ 0

instance (nowS : ℚ) (s : GameState) : Decidable (readingExpired nowS s) := by
  unfold readingExpired; infer_instance

instance (nowMs : ℤ) (s : GameState) : Decidable (buzzerPauseExpired nowMs s) := by
  unfold buzzerPauseExpired; infer_instance

instance (nowMs : ℤ) (s : GameState) : Decidable (resultPauseExpired nowMs s) := by
  unfold resultPauseExpired; infer_instance

instance (nowS : ℚ) (s : GameState) : Decidable (answeringExpired nowS s) := by
  unfold answeringExpired; infer_instance

/-- A question from the default catalog (source line 610). -/
def qEx : Question :=
  { nivel := 1
    pregunta := "Cual de estos numeros es par?"
    respuesta_correcta := "18"
    r1 := "15"
    r2 := "21" }

/-- The freshly constructed game state (menu, zeroed players), with a
one-question catalog. -/
def baseState : GameState :=
  { phase := GamePhase.menu
    level := 1
    player1 := initPlayerState
    player2 := initPlayerState
    winner := none
    questions := [qEx]
    available_questions := []
    current_question := none
    current_options := []
    questions_answered := 0
    buzzer_winner := none
    buzzer_pause_start := 0
    result_pause_start := 0
    last_answer_correct := none
    last_answer_skipped := false
    reading_time_remaining := READING_TIME_LIMIT
    reading_start_time := 0
    answer_time_remaining := ANSWER_TIME_LIMIT
    answer_start_time := 0 }

/-- A mid-round state: player 1 has won the buzzer and is answering
`qEx`, whose options came out as `["15", "18", "21"]`. -/
def answeringState : GameState :=
  { baseState with
    phase := GamePhase.answering
    buzzer_winner := some 1
    current_question := some qEx
    current_options := ["15", "18", "21"] }

/-- C1: buzzer presses are accepted only in phase BUZZER, answer
selections and skips only in phase ANSWERING; in any other phase the
action is silently ignored — the call returns without an exception and
the game state is unchanged. -/
theorem actions_ignored_outside_phase (s : GameState) (p : ℕ) (i nowMs : ℤ) :
    (s.phase ≠ GamePhase.buzzer → handle_buzzer_press p nowMs s = s) ∧
    (s.phase ≠ GamePhase.answering →
      answer_question p i nowMs s = some s ∧ handle_skip p nowMs s = s) := by
  constructor
  · intro h
    simp [handle_buzzer_press, h]
  · intro h
    constructor
    · simp [answer_question, h]
    · simp [handle_skip, h]

theorem actions_ignored_outside_phase_witness :
    handle_buzzer_press 1 0 baseState = baseState ∧
    answer_question 1 0 0 baseState = some baseState ∧
    handle_skip 1 0 baseState = baseState := by
  have h := actions_ignored_outside_phase baseState 1 0 0
  exact ⟨h.1 (by decide), (h.2 (by decide)).1, (h.2 (by decide)).2⟩

/-- C4: during ANSWERING, an answer or skip attempt by any player other
than the recorded buzzer winner is a complete no-op: the returned state
is exactly the input state (no score, position or phase change). -/
theorem non_winner_actions_noop (s : GameState) (p : ℕ) (i nowMs : ℤ)
    (hph : s.phase = GamePhase.answering) (hbw : s.buzzer_winner ≠ some p) :
    answer_question p i nowMs s = some s ∧ handle_skip p nowMs s = s := by
  constructor
  · simp [answer_question, hph, hbw]
  · simp [handle_skip, hph, hbw]

theorem non_winner_actions_noop_witness :
    answer_question 2 0 0 answeringState = some answeringState ∧
    handle_skip 2 0 answeringState = answeringState :=
  non_winner_actions_noop answeringState 2 0 0 (by decide) (by decide)

/-- C7: `determine_winner` (reached from `assign_next_question` exactly
when the question bank is exhausted) moves the game to FINISHED and sets
the winner by score comparison: strictly higher score wins, equal scores
give a draw (`winner = 0`). -/
theorem determine_winner_scores (s : GameState) (j2 j1 : ℕ) (nowS : ℚ) :
    (determine_winner s).phase = GamePhase.finished ∧
    (determine_winner s).winner =
      some (if s.player2.score < s.player1.score then 1
            else if s.player1.score < s.player2.score then 2 else 0) ∧
    (s.available_questions = [] →
      (assign_next_question j2 j1 nowS s).phase = GamePhase.finished ∧
      (assign_next_question j2 j1 nowS s).winner =
        some (if s.player2.score < s.player1.score then 1
              else if s.player1.score < s.player2.score then 2 else 0)) := by
  refine ⟨?_, ?_, ?_⟩
  · unfold determine_winner
    split_ifs <;> rfl
  · unfold determine_winner
    simp only [gt_iff_lt]
    split_ifs <;> rfl
  · intro h
    unfold assign_next_question
    simp only [h]
    unfold determine_winner
    simp only [gt_iff_lt]
    split_ifs <;> simp_all

theorem determine_winner_scores_witness :
    (assign_next_question 0 0 0 baseState).phase = GamePhase.finished ∧
    (assign_next_question 0 0 0 baseState).winner = some 0 := by
  have h := (determine_winner_scores baseState 0 0 0).2.2 (by decide)
  exact ⟨h.1, by rw [h.2]; decide⟩

lemma getPlayer_setPlayer (p : ℕ) (ps : PlayerState) (s : GameState) :
    getPlayer p (setPlayer p ps s) = ps := by
  by_cases h : p = 1 <;> simp [getPlayer, setPlayer, h]

lemma setPlayer_phase (p : ℕ) (ps : PlayerState) (s : GameState) :
    (setPlayer p ps s).phase = s.phase := by
  by_cases h : p = 1 <;> simp [setPlayer, h]

lemma setPlayer_available (p : ℕ) (ps : PlayerState) (s : GameState) :
    (setPlayer p ps s).available_questions = s.available_questions := by
  by_cases h : p = 1 <;> simp [setPlayer, h]

lemma setPlayer_winner (p : ℕ) (ps : PlayerState) (s : GameState) :
    (setPlayer p ps s).winner = s.winner := by
  by_cases h : p = 1 <;> simp [setPlayer, h]

/-- C2: a correct answer by the buzzer winner during ANSWERING sets that
player's track position to `min (pos + POSITION_INCREMENT)
WINNING_POSITION`, adds exactly one point, leaves the question bank
untouched, and — whenever the updated position reaches the winning
position 100 — ends the match immediately (phase FINISHED, that player
recorded as overall winner); otherwise the round moves to RESULT_PAUSE. -/
theorem correct_answer_scoring (s : GameState) (p : ℕ) (i nowMs : ℤ)
    (q : Question)
    (hph : s.phase = GamePhase.answering)
    (hbw : s.buzzer_winner = some p)
    (hq : s.current_question = some q)
    (hlen : i < (s.current_options.length : ℤ))
    (hsel : pyIndex s.current_options i = some q.respuesta_correcta) :
    ∃ s1, answer_question p i nowMs s = some s1 ∧
      (getPlayer p s1).target_position =
        min ((getPlayer p s).target_position + POSITION_INCREMENT)
          WINNING_POSITION ∧
      (getPlayer p s1).score = (getPlayer p s).score + 1 ∧
      s1.available_questions = s.available_questions ∧
      ((getPlayer p s1).target_position ≥ WINNING_POSITION →
        s1.phase = GamePhase.finished ∧ s1.winner = some p) ∧
      ((getPlayer p s1).target_position < WINNING_POSITION →
        s1.phase = GamePhase.result_pause) := by
  have hni : ¬ (i ≥ (s.current_options.length : ℤ)) := not_le.mpr hlen
  obtain ⟨ph, lv, p1, p2, w, qs, av, cq, co, qa, bw, bps, rps, lac, las, rtr, rst, atr, ast⟩ := s
  dsimp only at hph hbw hq hlen hsel hni
  subst hph
  subst hbw
  subst hq
  unfold answer_question
  dsimp only
  rw [if_neg (by simp), if_neg (by simp), if_neg hni, hsel]
  dsimp only [beq_self_eq_true]
  by_cases hp : p = 1
  case pos =>
    subst hp
    simp only [getPlayer, setPlayer, if_pos rfl, beq_self_eq_true, if_true,
      ite_true]
    split_ifs with hw
    · refine ⟨_, rfl, ?_, ?_, ?_, ?_, ?_⟩
      · simp [getPlayer]
      · simp [getPlayer]
      · simp
      · intro h17
        exact ⟨rfl, rfl⟩
      · intro hlt
        simp only [getPlayer, if_pos rfl] at hlt
        exact absurd hw (not_le.mpr hlt)
    · refine ⟨_, rfl, ?_, ?_, ?_, ?_, ?_⟩
      · simp [getPlayer]
      · simp [getPlayer]
      · simp
      · intro hge
        simp only [getPlayer, if_pos rfl] at hge
        exact absurd hge hw
      · intro h17
        rfl
  case neg =>
    simp only [getPlayer, setPlayer, if_neg hp, beq_self_eq_true, if_true,
      ite_true]
    split_ifs with hw
    · refine ⟨_, rfl, ?_, ?_, ?_, ?_, ?_⟩
      · simp [getPlayer, hp]
      · simp [getPlayer, hp]
      · simp
      · intro h17
        exact ⟨rfl, rfl⟩
      · intro hlt
        simp only [getPlayer, if_neg hp] at hlt
        exact absurd hw (not_le.mpr hlt)
    · refine ⟨_, rfl, ?_, ?_, ?_, ?_, ?_⟩
      · simp [getPlayer, hp]
      · simp [getPlayer, hp]
      · simp
      · intro hge
        simp only [getPlayer, if_neg hp] at hge
        exact absurd hge hw
      · intro h17
        rfl
theorem correct_answer_scoring_witness :
    ∃ s1, answer_question 1 1 0 answeringState = some s1 ∧
      (getPlayer 1 s1).target_position =
        min ((getPlayer 1 answeringState).target_position + POSITION_INCREMENT)
          WINNING_POSITION ∧
      (getPlayer 1 s1).score = (getPlayer 1 answeringState).score + 1 ∧
      s1.available_questions = answeringState.available_questions ∧
      ((getPlayer 1 s1).target_position ≥ WINNING_POSITION →
        s1.phase = GamePhase.finished ∧ s1.winner = some 1) ∧
      ((getPlayer 1 s1).target_position < WINNING_POSITION →
        s1.phase = GamePhase.result_pause) :=
  correct_answer_scoring answeringState 1 1 0 qEx (by decide) (by decide)
    (by decide) (by decide) (by decide)

lemma pyInt_zero : pyInt 0 = 0 := by
  simp [pyInt]

lemma handle_answer_timeout_phase (t : ℤ) (s : GameState) :
    (handle_answer_timeout t s).phase = GamePhase.result_pause := by
  unfold handle_answer_timeout
  cases s.buzzer_winner <;> simp [setPlayer]

lemma assign_next_question_phase (j2 j1 : ℕ) (t : ℚ) (s : GameState) :
    (assign_next_question j2 j1 t s).phase = GamePhase.reading ∨
      (assign_next_question j2 j1 t s).phase = GamePhase.finished := by
  unfold assign_next_question
  cases h : s.available_questions
  · simp only [h]
    unfold determine_winner
    split_ifs <;> simp
  · simp [h]

lemma readingBlock_skip (nowS : ℚ) (s : GameState)
    (h : s.phase ≠ GamePhase.reading) : readingBlock nowS s = s := by
  unfold readingBlock
  rw [if_neg h]

lemma buzzerPauseBlock_skip (nowS : ℚ) (nowMs : ℤ) (s : GameState)
    (h : s.phase ≠ GamePhase.buzzer_pause) :
    buzzerPauseBlock nowS nowMs s = s := by
  unfold buzzerPauseBlock
  rw [if_neg h]

lemma resultPauseBlock_skip (j2 j1 : ℕ) (nowS : ℚ) (nowMs : ℤ) (s : GameState)
    (h : s.phase ≠ GamePhase.result_pause) :
    resultPauseBlock j2 j1 nowS nowMs s = s := by
  unfold resultPauseBlock
  rw [if_neg h]

lemma answeringBlock_skip (nowS : ℚ) (nowMs : ℤ) (s : GameState)
    (h : s.phase ≠ GamePhase.answering) :
    answeringBlock nowS nowMs s = s := by
  unfold answeringBlock
  rw [if_neg h]

lemma update_phase (nowS : ℚ) (nowMs : ℤ) (j2 j1 : ℕ) (s : GameState) :
    (update nowS nowMs j2 j1 s).phase =
      (answeringBlock nowS nowMs
        (resultPauseBlock j2 j1 nowS nowMs
          (buzzerPauseBlock nowS nowMs (readingBlock nowS s)))).phase := rfl

lemma update_reading_fired (nowS : ℚ) (nowMs : ℤ) (j2 j1 : ℕ) (s : GameState)
    (h1 : s.phase = GamePhase.reading)
    (h2 : max 0 (READING_TIME_LIMIT - pyInt (nowS - s.reading_start_time)) ≤ 0) :
    (update nowS nowMs j2 j1 s).phase = GamePhase.buzzer := by
  have hr : (readingBlock nowS s).phase = GamePhase.buzzer := by
    unfold readingBlock
    rw [if_pos h1, if_pos h2]
  have hb : buzzerPauseBlock nowS nowMs (readingBlock nowS s) =
      readingBlock nowS s :=
    buzzerPauseBlock_skip _ _ _ (by simp [hr])
  have hc : resultPauseBlock j2 j1 nowS nowMs (readingBlock nowS s) =
      readingBlock nowS s :=
    resultPauseBlock_skip _ _ _ _ _ (by simp [hr])
  have hd : answeringBlock nowS nowMs (readingBlock nowS s) =
      readingBlock nowS s :=
    answeringBlock_skip _ _ _ (by simp [hr])
  rw [update_phase, hb, hc, hd, hr]

lemma update_buzzer_pause_fired (nowS : ℚ) (nowMs : ℤ) (j2 j1 : ℕ)
    (s : GameState)
    (h1 : s.phase = GamePhase.buzzer_pause)
    (h2 : nowMs - s.buzzer_pause_start ≥ BUZZER_PAUSE_DURATION) :
    (update nowS nowMs j2 j1 s).phase = GamePhase.answering := by
  have hb : buzzerPauseBlock nowS nowMs s =
      { s with
        phase := GamePhase.answering
        answer_start_time := nowS
        answer_time_remaining := ANSWER_TIME_LIMIT } := by
    unfold buzzerPauseBlock
    rw [if_pos h1, if_pos h2]
  rw [update_phase, readingBlock_skip _ _ (by simp [h1]), hb,
    resultPauseBlock_skip _ _ _ _ _ (by simp)]
  unfold answeringBlock
  rw [if_pos (by simp)]
  have hz : max 0 (ANSWER_TIME_LIMIT -
      pyInt (nowS - ({ s with
        phase := GamePhase.answering
        answer_start_time := nowS
        answer_time_remaining := ANSWER_TIME_LIMIT } :
          GameState).answer_start_time)) = ANSWER_TIME_LIMIT := by
    show max 0 (ANSWER_TIME_LIMIT - pyInt (nowS - nowS)) = ANSWER_TIME_LIMIT
    rw [sub_self, pyInt_zero]
    simp [ANSWER_TIME_LIMIT]
  rw [hz, if_neg (by simp [ANSWER_TIME_LIMIT])]

lemma update_answering_fired (nowS : ℚ) (nowMs : ℤ) (j2 j1 : ℕ)
    (s : GameState)
    (h1 : s.phase = GamePhase.answering)
    (h2 : max 0 (ANSWER_TIME_LIMIT - pyInt (nowS - s.answer_start_time)) ≤ 0) :
    (update nowS nowMs j2 j1 s).phase = GamePhase.result_pause := by
  rw [update_phase, readingBlock_skip _ _ (by simp [h1]),
    buzzerPauseBlock_skip _ _ _ (by simp [h1]),
    resultPauseBlock_skip _ _ _ _ _ (by simp [h1])]
  unfold answeringBlock
  rw [if_pos h1, if_pos h2]
  exact handle_answer_timeout_phase _ _

lemma update_result_pause_fired (nowS : ℚ) (nowMs : ℤ) (j2 j1 : ℕ)
    (s : GameState)
    (h1 : s.phase = GamePhase.result_pause)
    (h2 : nowMs - s.result_pause_start ≥ RESULT_PAUSE_DURATION) :
    (update nowS nowMs j2 j1 s).phase = GamePhase.reading ∨
      (update nowS nowMs j2 j1 s).phase = GamePhase.finished := by
  rw [update_phase, readingBlock_skip _ _ (by simp [h1]),
    buzzerPauseBlock_skip _ _ _ (by simp [h1])]
  have hrp : resultPauseBlock j2 j1 nowS nowMs s =
      assign_next_question j2 j1 nowS s := by
    unfold resultPauseBlock
    rw [if_pos h1, if_pos h2]
  rw [hrp]
  rcases assign_next_question_phase j2 j1 nowS s with h | h
  · left
    rw [answeringBlock_skip _ _ _ (by simp [h])]
    exact h
  · right
    rw [answeringBlock_skip _ _ _ (by simp [h])]
    exact h

/-- C5: each timer-expiry check of the update loop fires exactly one
phase transition.  After the transition fired in a tick, the same expiry
check is false on the resulting state at every later tick — the
transition moved the game out of the checked phase, so re-evaluating the
check cannot re-trigger it. -/
theorem timer_expiry_single_fire (s : GameState) (nowS : ℚ) (nowMs : ℤ)
    (j2 j1 : ℕ) (nowS2 : ℚ) (nowMs2 : ℤ) :
    (readingExpired nowS s →
      ¬ readingExpired nowS2 (update nowS nowMs j2 j1 s)) ∧
    (buzzerPauseExpired nowMs s →
      ¬ buzzerPauseExpired nowMs2 (update nowS nowMs j2 j1 s)) ∧
    (answeringExpired nowS s →
      ¬ answeringExpired nowS2 (update nowS nowMs j2 j1 s)) ∧
    (resultPauseExpired nowMs s →
      ¬ resultPauseExpired nowMs2 (update nowS nowMs j2 j1 s)) := by
  refine ⟨?_, ?_, ?_, ?_⟩
  · rintro ⟨h1, h2⟩ ⟨hc1, -⟩
    have hb := update_reading_fired nowS nowMs j2 j1 s h1 h2
    rw [hc1] at hb
    exact absurd hb (by decide)
  · rintro ⟨h1, h2⟩ ⟨hc1, -⟩
    have hb := update_buzzer_pause_fired nowS nowMs j2 j1 s h1 h2
    rw [hc1] at hb
    exact absurd hb (by decide)
  · rintro ⟨h1, h2⟩ ⟨hc1, -⟩
    have hb := update_answering_fired nowS nowMs j2 j1 s h1 h2
    rw [hc1] at hb
    exact absurd hb (by decide)
  · rintro ⟨h1, h2⟩ ⟨hc1, -⟩
    rcases update_result_pause_fired nowS nowMs j2 j1 s h1 h2 with hb | hb <;>
      rw [hc1] at hb
    · exact absurd hb (by decide)
    · exact absurd hb (by decide)

/-- A state sitting in READING whose reading timer has expired by time
`nowS = 10`. -/
def readingExpState : GameState :=
  { baseState with phase := GamePhase.reading }

theorem timer_expiry_single_fire_witness :
    readingExpired 10 readingExpState ∧
    ¬ readingExpired 10 (update 10 0 0 0 readingExpState) := by
  have hexp : readingExpired 10 readingExpState := by
    constructor
    · rfl
    · norm_num [pyInt, readingExpState, baseState, READING_TIME_LIMIT]
  exact ⟨hexp, (timer_expiry_single_fire readingExpState 10 0 0 0 10 0).1 hexp⟩

/-- Both players' rendered and target track positions are within the
track: at most 100. -/
def PosInv (s : GameState) : Prop :=
  s.player1.target_position ≤ 100 ∧ s.player1.position ≤ 100 ∧
  s.player2.target_position ≤ 100 ∧ s.player2.position ≤ 100

/-- Pointwise order on both players' rendered and target positions. -/
def posLe (s t : GameState) : Prop :=
  s.player1.target_position ≤ t.player1.target_position ∧
  s.player1.position ≤ t.player1.position ∧
  s.player2.target_position ≤ t.player2.target_position ∧
  s.player2.position ≤ t.player2.position

lemma posLe_refl (s : GameState) : posLe s s :=
  ⟨le_refl _, le_refl _, le_refl _, le_refl _⟩

lemma posLe_trans {s t u : GameState} (h1 : posLe s t) (h2 : posLe t u) :
    posLe s u :=
  ⟨h1.1.trans h2.1, h1.2.1.trans h2.2.1, h1.2.2.1.trans h2.2.2.1,
    h1.2.2.2.trans h2.2.2.2⟩

@[simp] lemma assign_p1_pos (j2 j1 : ℕ) (t : ℚ) (s : GameState) :
    (assign_next_question j2 j1 t s).player1.position = s.player1.position := by
  unfold assign_next_question
  cases h : s.available_questions
  · simp only [h]
    unfold determine_winner
    split_ifs <;> simp
  · simp [h]

@[simp] lemma assign_p1_tgt (j2 j1 : ℕ) (t : ℚ) (s : GameState) :
    (assign_next_question j2 j1 t s).player1.target_position =
      s.player1.target_position := by
  unfold assign_next_question
  cases h : s.available_questions
  · simp only [h]
    unfold determine_winner
    split_ifs <;> simp
  · simp [h]

@[simp] lemma assign_p2_pos (j2 j1 : ℕ) (t : ℚ) (s : GameState) :
    (assign_next_question j2 j1 t s).player2.position = s.player2.position := by
  unfold assign_next_question
  cases h : s.available_questions
  · simp only [h]
    unfold determine_winner
    split_ifs <;> simp
  · simp [h]

@[simp] lemma assign_p2_tgt (j2 j1 : ℕ) (t : ℚ) (s : GameState) :
    (assign_next_question j2 j1 t s).player2.target_position =
      s.player2.target_position := by
  unfold assign_next_question
  cases h : s.available_questions
  · simp only [h]
    unfold determine_winner
    split_ifs <;> simp
  · simp [h]

@[simp] lemma timeout_p1_pos (t : ℤ) (s : GameState) :
    (handle_answer_timeout t s).player1.position = s.player1.position := by
  unfold handle_answer_timeout
  cases s.buzzer_winner with
  | none => rfl
  | some w =>
    by_cases hw : w = 0
    · simp [hw]
    · by_cases hp : w = 1 <;> simp [hw, hp, setPlayer, getPlayer]

@[simp] lemma timeout_p1_tgt (t : ℤ) (s : GameState) :
    (handle_answer_timeout t s).player1.target_position =
      s.player1.target_position := by
  unfold handle_answer_timeout
  cases s.buzzer_winner with
  | none => rfl
  | some w =>
    by_cases hw : w = 0
    · simp [hw]
    · by_cases hp : w = 1 <;> simp [hw, hp, setPlayer, getPlayer]

@[simp] lemma timeout_p2_pos (t : ℤ) (s : GameState) :
    (handle_answer_timeout t s).player2.position = s.player2.position := by
  unfold handle_answer_timeout
  cases s.buzzer_winner with
  | none => rfl
  | some w =>
    by_cases hw : w = 0
    · simp [hw]
    · by_cases hp : w = 1 <;> simp [hw, hp, setPlayer, getPlayer]

@[simp] lemma timeout_p2_tgt (t : ℤ) (s : GameState) :
    (handle_answer_timeout t s).player2.target_position =
      s.player2.target_position := by
  unfold handle_answer_timeout
  cases s.buzzer_winner with
  | none => rfl
  | some w =>
    by_cases hw : w = 0
    · simp [hw]
    · by_cases hp : w = 1 <;> simp [hw, hp, setPlayer, getPlayer]

@[simp] lemma readingBlock_p1 (nowS : ℚ) (s : GameState) :
    (readingBlock nowS s).player1 = s.player1 := by
  unfold readingBlock
  split_ifs <;> rfl

@[simp] lemma readingBlock_p2 (nowS : ℚ) (s : GameState) :
    (readingBlock nowS s).player2 = s.player2 := by
  unfold readingBlock
  split_ifs <;> rfl

@[simp] lemma buzzerPauseBlock_p1 (nowS : ℚ) (nowMs : ℤ) (s : GameState) :
    (buzzerPauseBlock nowS nowMs s).player1 = s.player1 := by
  unfold buzzerPauseBlock
  split_ifs <;> rfl

@[simp] lemma buzzerPauseBlock_p2 (nowS : ℚ) (nowMs : ℤ) (s : GameState) :
    (buzzerPauseBlock nowS nowMs s).player2 = s.player2 := by
  unfold buzzerPauseBlock
  split_ifs <;> rfl

@[simp] lemma resultPauseBlock_p1_pos (j2 j1 : ℕ) (nowS : ℚ) (nowMs : ℤ)
    (s : GameState) :
    (resultPauseBlock j2 j1 nowS nowMs s).player1.position =
      s.player1.position := by
  unfold resultPauseBlock
  split_ifs <;> simp

@[simp] lemma resultPauseBlock_p1_tgt (j2 j1 : ℕ) (nowS : ℚ) (nowMs : ℤ)
    (s : GameState) :
    (resultPauseBlock j2 j1 nowS nowMs s).player1.target_position =
      s.player1.target_position := by
  unfold resultPauseBlock
  split_ifs <;> simp

@[simp] lemma resultPauseBlock_p2_pos (j2 j1 : ℕ) (nowS : ℚ) (nowMs : ℤ)
    (s : GameState) :
    (resultPauseBlock j2 j1 nowS nowMs s).player2.position =
      s.player2.position := by
  unfold resultPauseBlock
  split_ifs <;> simp

@[simp] lemma resultPauseBlock_p2_tgt (j2 j1 : ℕ) (nowS : ℚ) (nowMs : ℤ)
    (s : GameState) :
    (resultPauseBlock j2 j1 nowS nowMs s).player2.target_position =
      s.player2.target_position := by
  unfold resultPauseBlock
  split_ifs <;> simp

@[simp] lemma answeringBlock_p1_pos (nowS : ℚ) (nowMs : ℤ) (s : GameState) :
    (answeringBlock nowS nowMs s).player1.position = s.player1.position := by
  unfold answeringBlock
  split_ifs <;> simp

@[simp] lemma answeringBlock_p1_tgt (nowS : ℚ) (nowMs : ℤ) (s : GameState) :
    (answeringBlock nowS nowMs s).player1.target_position =
      s.player1.target_position := by
  unfold answeringBlock
  split_ifs <;> simp

@[simp] lemma answeringBlock_p2_pos (nowS : ℚ) (nowMs : ℤ) (s : GameState) :
    (answeringBlock nowS nowMs s).player2.position = s.player2.position := by
  unfold answeringBlock
  split_ifs <;> simp

@[simp] lemma answeringBlock_p2_tgt (nowS : ℚ) (nowMs : ℤ) (s : GameState) :
    (answeringBlock nowS nowMs s).player2.target_position =
      s.player2.target_position := by
  unfold answeringBlock
  split_ifs <;> simp

lemma animatePlayer_pos (ps : PlayerState) (htp : ps.target_position ≤ 100)
    (hp : ps.position ≤ 100) :
    (animatePlayer ps).target_position = ps.target_position ∧
    ps.position ≤ (animatePlayer ps).position ∧
    (animatePlayer ps).position ≤ 100 := by
  unfold animatePlayer
  split_ifs with h1 h2
  · exact ⟨rfl, le_of_lt h1, htp⟩
  · refine ⟨rfl, ?_, ?_⟩
    · show ps.position ≤ ps.position + 2
      linarith
    · show ps.position + 2 ≤ 100
      push_neg at h2
      linarith
  · exact ⟨rfl, le_refl _, hp⟩

lemma pos_step_finish (s X : GameState)
    (h1 : X.player1.position = s.player1.position)
    (h2 : X.player1.target_position = s.player1.target_position)
    (h3 : X.player2.position = s.player2.position)
    (h4 : X.player2.target_position = s.player2.target_position)
    (hinv : PosInv s) :
    PosInv { X with player1 := animatePlayer X.player1,
                    player2 := animatePlayer X.player2 } ∧
    posLe s { X with player1 := animatePlayer X.player1,
                     player2 := animatePlayer X.player2 } := by
  obtain ⟨i1, i2, i3, i4⟩ := hinv
  have a1 := animatePlayer_pos X.player1 (h2 ▸ i1) (h1 ▸ i2)
  have a2 := animatePlayer_pos X.player2 (h4 ▸ i3) (h3 ▸ i4)
  constructor
  · refine ⟨?_, ?_, ?_, ?_⟩
    · show (animatePlayer X.player1).target_position ≤ 100
      rw [a1.1, h2]; exact i1
    · exact a1.2.2
    · show (animatePlayer X.player2).target_position ≤ 100
      rw [a2.1, h4]; exact i3
    · exact a2.2.2
  · refine ⟨?_, ?_, ?_, ?_⟩
    · show s.player1.target_position ≤ (animatePlayer X.player1).target_position
      rw [a1.1, h2]
    · show s.player1.position ≤ (animatePlayer X.player1).position
      rw [← h1]; exact a1.2.1
    · show s.player2.target_position ≤ (animatePlayer X.player2).target_position
      rw [a2.1, h4]
    · show s.player2.position ≤ (animatePlayer X.player2).position
      rw [← h3]; exact a2.2.1

lemma update_pos (nowS : ℚ) (nowMs : ℤ) (j2 j1 : ℕ) (s : GameState)
    (hinv : PosInv s) :
    PosInv (update nowS nowMs j2 j1 s) ∧
      posLe s (update nowS nowMs j2 j1 s) := by
  exact pos_step_finish s _ (by simp) (by simp) (by simp) (by simp) hinv

@[simp] lemma buzz_p1 (p : ℕ) (t : ℤ) (s : GameState) :
    (handle_buzzer_press p t s).player1 = s.player1 := by
  unfold handle_buzzer_press
  split_ifs <;> rfl

@[simp] lemma buzz_p2 (p : ℕ) (t : ℤ) (s : GameState) :
    (handle_buzzer_press p t s).player2 = s.player2 := by
  unfold handle_buzzer_press
  split_ifs <;> rfl

@[simp] lemma skip_p1_pos (p : ℕ) (t : ℤ) (s : GameState) :
    (handle_skip p t s).player1.position = s.player1.position := by
  unfold handle_skip
  split_ifs
  · rfl
  · rfl
  · by_cases hp : p = 1 <;> simp [setPlayer, getPlayer, hp]

@[simp] lemma skip_p1_tgt (p : ℕ) (t : ℤ) (s : GameState) :
    (handle_skip p t s).player1.target_position =
      s.player1.target_position := by
  unfold handle_skip
  split_ifs
  · rfl
  · rfl
  · by_cases hp : p = 1 <;> simp [setPlayer, getPlayer, hp]

@[simp] lemma skip_p2_pos (p : ℕ) (t : ℤ) (s : GameState) :
    (handle_skip p t s).player2.position = s.player2.position := by
  unfold handle_skip
  split_ifs
  · rfl
  · rfl
  · by_cases hp : p = 1 <;> simp [setPlayer, getPlayer, hp]

@[simp] lemma skip_p2_tgt (p : ℕ) (t : ℤ) (s : GameState) :
    (handle_skip p t s).player2.target_position =
      s.player2.target_position := by
  unfold handle_skip
  split_ifs
  · rfl
  · rfl
  · by_cases hp : p = 1 <;> simp [setPlayer, getPlayer, hp]

lemma answer_question_pos (p : ℕ) (i t : ℤ) (s s1 : GameState)
    (hinv : PosInv s) (h : answer_question p i t s = some s1) :
    PosInv s1 ∧ posLe s s1 := by
  obtain ⟨i1, i2, i3, i4⟩ := hinv
  unfold answer_question at h
  by_cases c1 : s.phase ≠ GamePhase.answering
  · rw [if_pos c1] at h
    injection h with h
    subst h
    exact ⟨⟨i1, i2, i3, i4⟩, posLe_refl _⟩
  rw [if_neg c1] at h
  by_cases c2 : s.buzzer_winner ≠ some p
  · rw [if_pos c2] at h
    injection h with h
    subst h
    exact ⟨⟨i1, i2, i3, i4⟩, posLe_refl _⟩
  rw [if_neg c2] at h
  cases hcq : s.current_question with
  | none =>
    rw [hcq] at h
    injection h with h
    subst h
    exact ⟨⟨i1, i2, i3, i4⟩, posLe_refl _⟩
  | some q =>
    rw [hcq] at h
    dsimp only at h
    by_cases c3 : i ≥ (s.current_options.length : ℤ)
    · rw [if_pos c3] at h
      injection h with h
      subst h
      exact ⟨⟨i1, i2, i3, i4⟩, posLe_refl _⟩
    rw [if_neg c3] at h
    cases hpi : pyIndex s.current_options i with
    | none =>
      rw [hpi] at h
      exact absurd h (by simp)
    | some sel =>
      rw [hpi] at h
      dsimp only at h
      by_cases c4 : (sel == q.respuesta_correcta) = true
      · rw [if_pos c4] at h
        split_ifs at h with c5
        · injection h with h
          subst h
          by_cases hp : p = 1 <;>
            refine ⟨⟨?_, ?_, ?_, ?_⟩, ?_, ?_, ?_, ?_⟩ <;>
              simp [setPlayer, getPlayer, hp, POSITION_INCREMENT,
                WINNING_POSITION, i1, i2, i3, i4]
        · injection h with h
          subst h
          by_cases hp : p = 1 <;>
            refine ⟨⟨?_, ?_, ?_, ?_⟩, ?_, ?_, ?_, ?_⟩ <;>
              simp [setPlayer, getPlayer, hp, POSITION_INCREMENT,
                WINNING_POSITION, i1, i2, i3, i4]
      · rw [if_neg c4] at h
        injection h with h
        subst h
        by_cases hp : p = 1 <;>
          refine ⟨⟨?_, ?_, ?_, ?_⟩, ?_, ?_, ?_, ?_⟩ <;>
            simp [setPlayer, getPlayer, hp, i1, i2, i3, i4]

instance (s : GameState) : Decidable (PosInv s) := by
  unfold PosInv; infer_instance

instance (s t : GameState) : Decidable (posLe s t) := by
  unfold posLe; infer_instance

lemma applyOp_pos (op : Op) (s s1 : GameState) (hinv : PosInv s)
    (h : applyOp op s = some s1) : PosInv s1 ∧ posLe s s1 := by
  obtain ⟨i1, i2, i3, i4⟩ := hinv
  cases op with
  | buzz p t =>
    injection h with h
    subst h
    exact ⟨⟨by simp [i1], by simp [i2], by simp [i3], by simp [i4]⟩,
      by simp [posLe]⟩
  | ans p i t => exact answer_question_pos p i t s s1 ⟨i1, i2, i3, i4⟩ h
  | skip p t =>
    injection h with h
    subst h
    exact ⟨⟨by simp [i1], by simp [i2], by simp [i3], by simp [i4]⟩,
      by simp [posLe]⟩
  | timeout t =>
    injection h with h
    subst h
    exact ⟨⟨by simp [i1], by simp [i2], by simp [i3], by simp [i4]⟩,
      by simp [posLe]⟩
  | tick tS tMs j2 j1 =>
    injection h with h
    subst h
    exact update_pos tS tMs j2 j1 s ⟨i1, i2, i3, i4⟩

/-- C3: over every sequence of in-session operations (buzzer presses,
answer selections, skips, answering timeouts and ticks of the update
loop) that completes without an exception, both players' track positions
(v5's rendered `position` and the authoritative `target_position`) are
monotonically non-decreasing and never exceed 100, for every state whose
positions start within the track — as they do after `start_game`, which
zeroes both players. -/
theorem track_position_monotone_bounded (ops : List Op) (s s1 : GameState)
    (hinv : PosInv s) (h : applyOps ops s = some s1) :
    PosInv s1 ∧ posLe s s1 := by
  induction ops generalizing s with
  | nil =>
    unfold applyOps at h
    injection h with h
    subst h
    exact ⟨hinv, posLe_refl _⟩
  | cons op ops ih =>
    unfold applyOps at h
    cases ha : applyOp op s with
    | none =>
      rw [ha] at h
      exact absurd h (by simp)
    | some s2 =>
      rw [ha] at h
      dsimp only at h
      obtain ⟨hi2, hle2⟩ := applyOp_pos op s s2 hinv ha
      obtain ⟨hi1, hle1⟩ := ih s2 hi2 h
      exact ⟨hi1, posLe_trans hle2 hle1⟩

theorem track_position_monotone_bounded_witness :
    PosInv baseState ∧ posLe baseState baseState :=
  track_position_monotone_bounded [Op.skip 1 0] baseState baseState
    (by decide) (by decide)

/-- C6: the session draw order produced by `start_game` is
`random.sample(level_questions, len(level_questions))` — any permutation
`perm` of `get_questions_by_level questions level`.  Every question in it
has the selected level; if the catalog has no duplicate questions the
draw order has none either (so no question is presented twice); and the
questions are drawn by popping the head of the queue one at a time, each
exactly once, in order. -/
theorem draw_unique_and_level (qs : List Question) (level : ℕ)
    (perm : List Question)
    (hperm : perm.Perm (get_questions_by_level qs level)) :
    (∀ q ∈ perm, q.nivel = level) ∧
    (qs.Nodup → perm.Nodup) ∧
    (∀ (s : GameState) (j2 j1 : ℕ) (nowS : ℚ) (q : Question)
        (rest : List Question),
      s.available_questions = q :: rest →
        (assign_next_question j2 j1 nowS s).current_question = some q ∧
        (assign_next_question j2 j1 nowS s).available_questions = rest) ∧
    (∀ (s : GameState) (j2 j1 : ℕ) (nowS : ℚ) (q : Question)
        (rest : List Question),
      perm = q :: rest →
        (start_game level perm j2 j1 nowS s).current_question = some q ∧
        (start_game level perm j2 j1 nowS s).available_questions = rest) := by
  refine ⟨?_, ?_, ?_, ?_⟩
  · intro q hq
    have hmem : q ∈ get_questions_by_level qs level := hperm.subset hq
    unfold get_questions_by_level at hmem
    simpa using (List.mem_filter.mp hmem).2
  · intro hnd
    exact hperm.nodup_iff.mpr (hnd.filter _)
  · intro s j2 j1 nowS q rest h
    constructor <;> simp [assign_next_question, h]
  · intro s j2 j1 nowS q rest h
    constructor <;> simp [start_game, assign_next_question, h]

theorem draw_unique_and_level_witness :
    qEx.nivel = 1 ∧
    ([qEx] : List Question).Nodup ∧
    (assign_next_question 0 0 0
      { baseState with available_questions := [qEx] }).current_question =
      some qEx ∧
    (start_game 1 [qEx] 0 0 0 baseState).current_question = some qEx := by
  have h := draw_unique_and_level [qEx] 1 [qEx] (by decide)
  exact ⟨h.1 qEx (by simp), h.2.1 (by decide),
    (h.2.2.1 { baseState with available_questions := [qEx] } 0 0 0 qEx []
      rfl).1,
    (h.2.2.2 baseState 0 0 0 qEx [] rfl).1⟩

/-- A finished game (player 1 had won). -/
def finishedState : GameState :=
  { baseState with phase := GamePhase.finished, winner := some 1 }

/-- C8 counterexample: in phase FINISHED the ESC key is ignored — the
state is returned unchanged and the game does not transition to MENU —
refuting the claim that cancel works from every non-MENU phase
including FINISHED. -/
theorem escape_in_finished_ignored_cex :
    handle_key Key.kEscape [] 0 0 0 0 finishedState = some finishedState ∧
    finishedState.phase ≠ GamePhase.menu := by
  exact ⟨by decide, by decide⟩

/-- C8 (amended): the cancel key ESC transitions the game to MENU
(via `reset_game`, discarding the round context) from each of the five
in-round phases READING, BUZZER, BUZZER_PAUSE, ANSWERING and
RESULT_PAUSE; from FINISHED, however, ESC is silently ignored and only
SPACE (restart) returns to MENU. -/
theorem cancel_via_escape (s : GameState) (perm : List Question)
    (j2 j1 : ℕ) (nowS : ℚ) (nowMs : ℤ) :
    (s.phase = GamePhase.reading ∨ s.phase = GamePhase.buzzer ∨
      s.phase = GamePhase.buzzer_pause ∨ s.phase = GamePhase.answering ∨
      s.phase = GamePhase.result_pause →
      handle_key Key.kEscape perm j2 j1 nowS nowMs s =
        some (reset_game s) ∧
      (reset_game s).phase = GamePhase.menu ∧
      (reset_game s).current_question = none ∧
      (reset_game s).current_options = [] ∧
      (reset_game s).buzzer_winner = none) ∧
    (s.phase = GamePhase.finished →
      handle_key Key.kEscape perm j2 j1 nowS nowMs s = some s ∧
      handle_key Key.kSpace perm j2 j1 nowS nowMs s =
        some (reset_game s)) := by
  constructor
  · intro hin
    have hdisp : handle_key_dispatch Key.kEscape perm j2 j1 nowS nowMs s =
        some s := by
      unfold handle_key_dispatch
      rcases hin with h | h | h | h | h <;> simp [h]
    refine ⟨?_, rfl, rfl, rfl, rfl⟩
    unfold handle_key
    rw [hdisp]
    dsimp only
    unfold handle_key_reset
    rw [if_pos hin, if_pos rfl]
  · intro h
    have hne : ¬ (s.phase = GamePhase.reading ∨ s.phase = GamePhase.buzzer ∨
        s.phase = GamePhase.buzzer_pause ∨ s.phase = GamePhase.answering ∨
        s.phase = GamePhase.result_pause) := by
      simp [h]
    have hdispE : handle_key_dispatch Key.kEscape perm j2 j1 nowS nowMs s =
        some s := by
      unfold handle_key_dispatch
      simp [h]
    have hdispSp : handle_key_dispatch Key.kSpace perm j2 j1 nowS nowMs s =
        some s := by
      unfold handle_key_dispatch
      simp [h]
    constructor
    · unfold handle_key
      rw [hdispE]
      dsimp only
      unfold handle_key_reset
      rw [if_neg hne, if_pos h, if_neg (by decide)]
    · unfold handle_key
      rw [hdispSp]
      dsimp only
      unfold handle_key_reset
      rw [if_neg hne, if_pos h, if_pos rfl]

theorem cancel_via_escape_witness :
    handle_key Key.kEscape [] 0 0 0 0 answeringState =
      some (reset_game answeringState) ∧
    (reset_game answeringState).phase = GamePhase.menu ∧
    handle_key Key.kEscape [] 0 0 0 0 finishedState = some finishedState := by
  have h1 := (cancel_via_escape answeringState [] 0 0 0 0).1
    (Or.inr (Or.inr (Or.inr (Or.inl rfl))))
  have h2 := (cancel_via_escape finishedState [] 0 0 0 0).2 rfl
  exact ⟨h1.1, h1.2.1, h2.1⟩

/-- C9 counterexample: with the (valid) Fisher-Yates draws `j2 = 2`,
`j1 = 1` — both within the ranges `randbelow` can return — the shuffled
options come out exactly in the drawn order `[correct, r1, r2]`,
refuting "the returned order is never the same as the order the options
were drawn in". -/
theorem shuffle_identity_order_cex :
    shuffle_options 2 1 qEx = [qEx.respuesta_correcta, qEx.r1, qEx.r2] ∧
    2 < 3 ∧ 1 < 2 :=
  ⟨rfl, by decide, by decide⟩

/-- C9 (amended): for every valid pair of Fisher-Yates draws
(`j2 ≤ 2` for index 2, `j1 ≤ 1` for index 1), `shuffle_options` returns
the three strings as a permutation of the drawn options
`[correct, r1, r2]`; the identity order is one of the possible outcomes
(see the counterexample), so it is not excluded. -/
theorem shuffle_options_perm (q : Question) (j2 j1 : ℕ)
    (h2 : j2 < 3) (h1 : j1 < 2) :
    (shuffle_options j2 j1 q).Perm
      [q.respuesta_correcta, q.r1, q.r2] := by
  have hrot : ∀ x y z : String, ([x, y, z] : List String).Perm [y, z, x] :=
    fun x y z =>
      (List.Perm.swap y x [z]).trans (List.Perm.cons y (List.Perm.swap z x []))
  interval_cases j2 <;> interval_cases j1
  · show ([q.r1, q.r2, q.respuesta_correcta] : List String).Perm _
    exact (hrot q.r1 q.r2 q.respuesta_correcta).trans
      (hrot q.r2 q.respuesta_correcta q.r1)
  · show ([q.r2, q.r1, q.respuesta_correcta] : List String).Perm _
    exact (hrot q.r2 q.r1 q.respuesta_correcta).trans
      (List.Perm.swap q.respuesta_correcta q.r1 [q.r2])
  · show ([q.r2, q.respuesta_correcta, q.r1] : List String).Perm _
    exact hrot q.r2 q.respuesta_correcta q.r1
  · show ([q.respuesta_correcta, q.r2, q.r1] : List String).Perm _
    exact List.Perm.cons q.respuesta_correcta (List.Perm.swap q.r1 q.r2 [])
  · show ([q.r1, q.respuesta_correcta, q.r2] : List String).Perm _
    exact List.Perm.swap q.respuesta_correcta q.r1 [q.r2]
  · exact List.Perm.refl _

theorem shuffle_options_perm_witness :
    (shuffle_options 0 0 qEx).Perm [qEx.respuesta_correcta, qEx.r1, qEx.r2] :=
  shuffle_options_perm qEx 0 0 (by decide) (by decide)

/-- C10 counterexample: with the buzzer winner acting in ANSWERING on
the 3-option question of `answeringState`, `answer_question` at index
`-4` passes the bounds guard (`-4 < 3`) but the Python indexing
`current_options[-4]` raises `IndexError` (result `none`): the call is
neither a silent no-op nor resolved to one of the three options, so a
general negative index is not always "resolved by end-relative indexing
to one of the three options". -/
theorem negative_index_error_cex :
    answer_question 1 (-4) 0 answeringState = none ∧
    answeringState.phase = GamePhase.answering ∧
    answeringState.buzzer_winner = some 1 ∧
    answeringState.current_options.length = 3 :=
  ⟨by decide, rfl, rfl, rfl⟩

/-- C10 (amended): with the buzzer winner acting in the ANSWERING phase
on a question with the usual 3 options, `answer_question` rejects as a
silent no-op exactly the indices `≥ 3`; a negative index in
`{-3, -2, -1}` passes the bounds guard and is resolved by end-relative
indexing, scoring exactly as the option at `index + 3`; a negative index
`≤ -4` passes the bounds guard but raises an uncaught `IndexError`
(modelled as `none`) instead of being resolved to an option. -/
theorem negative_index_resolution (s : GameState) (p : ℕ) (i nowMs : ℤ)
    (q : Question)
    (hph : s.phase = GamePhase.answering)
    (hbw : s.buzzer_winner = some p)
    (hq : s.current_question = some q)
    (hlen : s.current_options.length = 3) :
    (i ≥ 3 → answer_question p i nowMs s = some s) ∧
    (-3 ≤ i → i ≤ -1 →
      answer_question p i nowMs s = answer_question p (i + 3) nowMs s) ∧
    (i ≤ -4 → answer_question p i nowMs s = none) := by
  have hlen3 : (s.current_options.length : ℤ) = 3 := by
    rw [hlen]
    norm_num
  refine ⟨?_, ?_, ?_⟩
  · intro hge
    unfold answer_question
    rw [if_neg (by simp [hph]), if_neg (by simp [hbw]), hq]
    dsimp only
    rw [if_pos (by rw [hlen3]; exact hge)]
  · intro hlo hhi
    have hpi : pyIndex s.current_options i =
        pyIndex s.current_options (i + 3) := by
      unfold pyIndex
      rw [hlen3]
      rw [if_neg (by linarith : ¬ (0 : ℤ) ≤ i),
        if_pos (by linarith : (0 : ℤ) ≤ i + 3)]
      rw [show (3 : ℤ) + i = i + 3 by ring]
    unfold answer_question
    rw [if_neg (by simp [hph]), if_neg (by simp [hbw]), hq]
    dsimp only
    rw [if_neg (by rw [hlen3]; linarith : ¬ i ≥ (s.current_options.length : ℤ)),
      if_neg (by rw [hlen3]; linarith : ¬ i + 3 ≥ (s.current_options.length : ℤ)),
      hpi]
    rw [if_neg (by simp [hph] : ¬ s.phase ≠ GamePhase.answering),
      if_neg (by simp [hbw] : ¬ s.buzzer_winner ≠ some p)]
  · intro hle
    have hnone : pyIndex s.current_options i = none := by
      unfold pyIndex
      rw [hlen3]
      rw [if_neg (by linarith : ¬ (0 : ℤ) ≤ i),
        if_neg (by linarith : ¬ (0 : ℤ) ≤ 3 + i)]
    unfold answer_question
    rw [if_neg (by simp [hph]), if_neg (by simp [hbw]), hq]
    dsimp only
    rw [if_neg (by rw [hlen3]; linarith : ¬ i ≥ (s.current_options.length : ℤ)),
      hnone]

theorem negative_index_resolution_witness :
    answer_question 1 3 0 answeringState = some answeringState ∧
    answer_question 1 (-1) 0 answeringState =
      answer_question 1 ((-1) + 3) 0 answeringState ∧
    answer_question 1 (-4) 0 answeringState = none := by
  refine ⟨?_, ?_, ?_⟩
  · exact (negative_index_resolution answeringState 1 3 0 qEx rfl rfl rfl
      rfl).1 (by decide)
  · exact (negative_index_resolution answeringState 1 (-1) 0 qEx rfl rfl rfl
      rfl).2.1 (by decide) (by decide)
  · exact (negative_index_resolution answeringState 1 (-4) 0 qEx rfl rfl rfl
      rfl).2.2 (by decide)

end RobotRace
